import Mathlib

/-!
Verification of the hazelcast rust client core: a shallow embedding of the
byte codec, record codec, frame codec, channel event loop, member registry
and PN-counter handle, with theorems checking the specification's claims.

Byte buffers are lists of naturals, each below 256 by construction of the
writers; reader functions return `none` where the source panics on buffer
underflow. Rust strings are embedded as their UTF-8 byte sequences; the
source's UTF-8 re-validation (`std::str::from_utf8`) is the identity on the
bytes of a valid string, so the embedded string reader returns the raw bytes.
-/

/-- A wire byte buffer (`bytes::Bytes` / `BytesMut`). -/
abbrev HzBytes := List Nat

/-- The UTF-8 byte content of a Rust string. -/
abbrev HzString := List Nat

/-- Little-endian byte decomposition of an `n`-byte unsigned machine integer
(`put_u16_le`, `put_u32_le`, `put_u64_le` in `impl Writeable for BytesMut`,
src/client/src/codec/mod.rs). -/
def bytesLE : Nat → Nat → HzBytes
  | 0, _ => []
  | n + 1, v => v % 256 :: bytesLE n (v / 256)

/-- Little-endian read of an `n`-byte unsigned machine integer
(`get_u16_le`, `get_u32_le`, `get_u64_le` in `impl Readable for Bytes`);
`none` models the buffer-underflow panic. -/
def readLE : Nat → HzBytes → Option (Nat × HzBytes)
  | 0, bs => some (0, bs)
  | _ + 1, [] => none
  | n + 1, b :: bs => (readLE n bs).map fun p => (b + 256 * p.1, p.2)

/-- `write_u8`. -/
def writeU8 (v : Nat) : HzBytes := [v % 256]

/-- `read_u8`; `none` models the underflow panic. -/
def readU8 : HzBytes → Option (Nat × HzBytes)
  | [] => none
  | b :: bs => some (b, bs)

/-- `write_bool`: one byte, `1` for true and `0` for false. -/
def writeBool (b : Bool) : HzBytes := [if b then 1 else 0]

/-- `read_bool`: `read_u8() > 0`. -/
def readBool (bs : HzBytes) : Option (Bool × HzBytes) :=
  (readU8 bs).map fun p => (decide (0 < p.1), p.2)

/-- `write_i32`: little-endian two's-complement bytes of an `i32`. -/
def writeI32 (v : Int) : HzBytes := bytesLE 4 (v % (2 ^ 32)).toNat

/-- `read_i32`: reinterpret four little-endian bytes as a signed 32-bit value. -/
def readI32 (bs : HzBytes) : Option (Int × HzBytes) :=
  (readLE 4 bs).map fun p =>
    (if p.1 < 2 ^ 31 then (p.1 : Int) else (p.1 : Int) - 2 ^ 32, p.2)

/-- `write_i64`: little-endian two's-complement bytes of an `i64`. -/
def writeI64 (v : Int) : HzBytes := bytesLE 8 (v % (2 ^ 64)).toNat

/-- `read_i64`: reinterpret eight little-endian bytes as a signed 64-bit value. -/
def readI64 (bs : HzBytes) : Option (Int × HzBytes) :=
  (readLE 8 bs).map fun p =>
    (if p.1 < 2 ^ 63 then (p.1 : Int) else (p.1 : Int) - 2 ^ 64, p.2)

/-- `read_slice` (`Bytes::split_to`): take `len` bytes off the front; `none`
models the panic when fewer than `len` bytes remain. -/
def readSlice (len : Nat) (bs : HzBytes) : Option (HzBytes × HzBytes) :=
  if len ≤ bs.length then some (bs.take len, bs.drop len) else none

/-- `skip` (`Bytes::advance`); `none` models the panic past the end. -/
def skipBytes (len : Nat) (bs : HzBytes) : Option HzBytes :=
  if len ≤ bs.length then some (bs.drop len) else none

theorem bytesLE_length (n v : Nat) : (bytesLE n v).length = n := by
  induction n generalizing v with
  | zero => rfl
  | succ n ih => simp [bytesLE, ih]

theorem readLE_bytesLE (n v : Nat) (rest : HzBytes) :
    readLE n (bytesLE n v ++ rest) = some (v % 256 ^ n, rest) := by
  induction n generalizing v with
  | zero => simp [bytesLE, readLE, Nat.mod_one]
  | succ n ih =>
    simp only [bytesLE, readLE, List.cons_append, List.append_eq]
    rw [ih]
    simp only [Option.map_some']
    have h : v % 256 + 256 * (v / 256 % 256 ^ n) = v % 256 ^ (n + 1) := by
      rw [pow_succ, mul_comm (256 ^ n) 256, Nat.mod_mul]
    rw [h]

theorem readI32_writeI32 (v : Int) (h1 : -(2 ^ 31) ≤ v) (h2 : v < 2 ^ 31)
    (rest : HzBytes) : readI32 (writeI32 v ++ rest) = some (v, rest) := by
  unfold readI32 writeI32
  rw [readLE_bytesLE]
  simp only [Option.map_some']
  have h : (if (v % (2 ^ 32)).toNat % 256 ^ 4 < 2 ^ 31
      then (((v % (2 ^ 32)).toNat % 256 ^ 4 : Nat) : Int)
      else (((v % (2 ^ 32)).toNat % 256 ^ 4 : Nat) : Int) - 2 ^ 32) = v := by
    split <;> omega
  rw [h]

theorem readI64_writeI64 (v : Int) (h1 : -(2 ^ 63) ≤ v) (h2 : v < 2 ^ 63)
    (rest : HzBytes) : readI64 (writeI64 v ++ rest) = some (v, rest) := by
  unfold readI64 writeI64
  rw [readLE_bytesLE]
  simp only [Option.map_some']
  have h : (if (v % (2 ^ 64)).toNat % 256 ^ 8 < 2 ^ 63
      then (((v % (2 ^ 64)).toNat % 256 ^ 8 : Nat) : Int)
      else (((v % (2 ^ 64)).toNat % 256 ^ 8 : Nat) : Int) - 2 ^ 64) = v := by
    split <;> omega
  rw [h]

/-! ### Composite codecs (src/client/src/codec/mod.rs)

`impl Writer for String` / `impl Reader for String`: a `u32` byte length then
the UTF-8 bytes; the length conversion panics above `u32::MAX` (`none`).
`impl Writer/Reader for Option<T>`: an inverted null flag, a `false` byte means
present. `impl Writer for &[T]` / `impl Reader for Vec<T>`: a `u32` count then
the encoded elements. -/

/-- `impl Writer for String`: `u32` length prefix then the bytes; `none`
models the `usize → u32` overflow panic. -/
def encodeString (s : HzString) : Option HzBytes :=
  if s.length < 2 ^ 32 then some (bytesLE 4 s.length ++ s) else none

/-- `impl Reader for String`: read a `u32` length, then that many bytes
(UTF-8 re-validation is the identity on bytes of a valid string). -/
def readString (bs : HzBytes) : Option (HzString × HzBytes) :=
  (readLE 4 bs).bind fun p => readSlice p.1 p.2

/-- `impl<T: Writer> Writer for Option<T>`: a `false` byte then the value when
present, a single `true` byte when absent (inverted null flag). -/
def encodeOpt (enc : α → Option HzBytes) : Option α → Option HzBytes
  | some v => (enc v).map fun bs => writeBool false ++ bs
  | none => some (writeBool true)

/-- `impl<T: Reader> Reader for Option<T>`: read the null flag, then the value
when the flag is `false`. -/
def readOpt (rd : HzBytes → Option (α × HzBytes)) (bs : HzBytes) :
    Option (Option α × HzBytes) :=
  (readBool bs).bind fun p =>
    if p.1 then some (none, p.2)
    else (rd p.2).map fun q => (some q.1, q.2)

/-- Encode the elements of a sequence back to back. -/
def encodeEach (enc : α → Option HzBytes) : List α → Option HzBytes
  | [] => some []
  | x :: xs => (enc x).bind fun b => (encodeEach enc xs).map fun t => b ++ t

/-- `impl<T: Writer> Writer for &[T]`: a `u32` count then the elements; `none`
models the `usize → u32` overflow panic. -/
def encodeList (enc : α → Option HzBytes) (xs : List α) : Option HzBytes :=
  if xs.length < 2 ^ 32 then
    (encodeEach enc xs).map fun t => bytesLE 4 xs.length ++ t
  else none

/-- Read `n` consecutive elements. -/
def readN (rd : HzBytes → Option (α × HzBytes)) : Nat → HzBytes → Option (List α × HzBytes)
  | 0, bs => some ([], bs)
  | n + 1, bs => (rd bs).bind fun p => (readN rd n p.2).map fun q => (p.1 :: q.1, q.2)

/-- `impl<T: Reader> Reader for Vec<T>`: read a `u32` count then that many
elements. -/
def readList (rd : HzBytes → Option (α × HzBytes)) (bs : HzBytes) :
    Option (List α × HzBytes) :=
  (readLE 4 bs).bind fun p => readN rd p.1 p.2

/-- Reading back an encoding in place recovers the value and leaves the rest
of the buffer untouched. -/
def ReadsBack (enc : α → Option HzBytes) (rd : HzBytes → Option (α × HzBytes))
    (v : α) : Prop :=
  ∀ bs rest, enc v = some bs → rd (bs ++ rest) = some (v, rest)

theorem readsBack_string (s : HzString) : ReadsBack encodeString readString s := by
  intro bs rest henc
  unfold encodeString at henc
  split at henc
  · cases henc
    unfold readString
    rw [List.append_assoc, readLE_bytesLE]
    simp only [Option.some_bind]
    rw [Nat.mod_eq_of_lt (by assumption)]
    unfold readSlice
    rw [if_pos (by simp)]
    simp [List.take_left, List.drop_left]
  · cases henc

theorem readsBack_u8 (v : Nat) (h : v < 256) :
    ReadsBack (fun v => some (writeU8 v)) readU8 v := by
  intro bs rest henc
  cases henc
  simp [writeU8, readU8, Nat.mod_eq_of_lt h]

theorem readsBack_bool (b : Bool) :
    ReadsBack (fun b => some (writeBool b)) readBool b := by
  intro bs rest henc
  cases henc
  cases b <;> simp [writeBool, readBool, readU8]

theorem readsBack_opt (enc : α → Option HzBytes) (rd : HzBytes → Option (α × HzBytes))
    (ov : Option α) (h : ∀ v ∈ ov, ReadsBack enc rd v) :
    ReadsBack (encodeOpt enc) (readOpt rd) ov := by
  intro bs rest henc
  cases ov with
  | none =>
    cases henc
    simp [readOpt, writeBool, readBool, readU8]
  | some v =>
    simp only [encodeOpt] at henc
    cases he : enc v with
    | none => rw [he] at henc; cases henc
    | some vb =>
      rw [he] at henc
      simp only [Option.map_some'] at henc
      cases henc
      have hrd := h v rfl vb rest he
      simp [readOpt, writeBool, readBool, readU8, hrd]

theorem readN_encodeEach (enc : α → Option HzBytes) (rd : HzBytes → Option (α × HzBytes))
    (xs : List α) (h : ∀ v ∈ xs, ReadsBack enc rd v) (t rest : HzBytes)
    (ht : encodeEach enc xs = some t) :
    readN rd xs.length (t ++ rest) = some (xs, rest) := by
  induction xs generalizing t rest with
  | nil =>
    simp only [encodeEach] at ht
    cases ht
    simp [readN]
  | cons x xs ih =>
    simp only [encodeEach] at ht
    cases hx : enc x with
    | none => rw [hx] at ht; cases ht
    | some xb =>
      rw [hx] at ht
      simp only [Option.some_bind] at ht
      cases hxs : encodeEach enc xs with
      | none => rw [hxs] at ht; cases ht
      | some xt =>
        rw [hxs] at ht
        simp only [Option.map_some'] at ht
        cases ht
        simp only [List.length_cons, readN, List.append_assoc]
        rw [h x (by simp) xb (xt ++ rest) hx]
        simp only [Option.some_bind]
        rw [ih (fun v hv => h v (by simp [hv])) xt rest hxs]
        rfl

theorem readsBack_list (enc : α → Option HzBytes) (rd : HzBytes → Option (α × HzBytes))
    (xs : List α) (h : ∀ v ∈ xs, ReadsBack enc rd v) :
    ReadsBack (encodeList enc) (readList rd) xs := by
  intro bs rest henc
  unfold encodeList at henc
  split at henc
  · cases ht : encodeEach enc xs with
    | none => rw [ht] at henc; cases henc
    | some t =>
      rw [ht] at henc
      simp only [Option.map_some'] at henc
      cases henc
      unfold readList
      rw [List.append_assoc, readLE_bytesLE]
      simp only [Option.some_bind]
      rw [Nat.mod_eq_of_lt (by assumption)]
      exact readN_encodeEach enc rd xs h t rest ht
  · cases henc

/-- Sequence two optional encodings, concatenating their bytes. Record
encoders are right-nested chains of this combinator, one link per field in
declaration order (the derive macros in src/macros/src/lib.rs emit
`self.field.write_to(writeable)` for each field in declaration order). -/
def encSeq (e1 e2 : Option HzBytes) : Option HzBytes :=
  e1.bind fun a => e2.map fun b => a ++ b

theorem encSeq_some {e1 e2 : Option HzBytes} {bs : HzBytes}
    (h : encSeq e1 e2 = some bs) :
    ∃ a b, e1 = some a ∧ e2 = some b ∧ bs = a ++ b := by
  unfold encSeq at h
  cases h1 : e1 with
  | none => rw [h1] at h; cases h
  | some a =>
    rw [h1] at h
    cases h2 : e2 with
    | none => rw [h2] at h; cases h
    | some b =>
      rw [h2] at h
      simp only [Option.some_bind, Option.map_some'] at h
      cases h
      exact ⟨a, b, rfl, rfl, rfl⟩

/-- Well-formedness of an optional field's payload. -/
def optAll (P : α → Prop) : Option α → Prop
  | none => True
  | some a => P a

instance {P : α → Prop} [DecidablePred P] (o : Option α) : Decidable (optAll P o) :=
  match o with
  | none => isTrue trivial
  | some a => inferInstanceAs (Decidable (P a))

theorem optAll_mem {P : α → Prop} {o : Option α} (h : optAll P o) :
    ∀ x ∈ o, P x := by
  cases o with
  | none => intro x hx; cases hx
  | some a => intro x hx; cases hx; exact h

/-! ### Protocol records (src/client/src/protocol/mod.rs,
src/client/src/messaging/*.rs)

Rust machine-integer fields are embedded as `Nat`/`Int`; the `Wf` predicate
of each record is the range invariant the Rust field types enforce
statically. -/

/-- `Address { host: String, port: u32 }`. -/
structure Address where
  host : HzString
  port : Nat
  deriving DecidableEq

/-- The range invariant of `Address`'s Rust field types. -/
def Address.Wf (a : Address) : Prop := a.port < 2 ^ 32

instance (a : Address) : Decidable a.Wf := inferInstanceAs (Decidable (_ < _))

def encodeAddress (a : Address) : Option HzBytes :=
  encSeq (encodeString a.host) (some (bytesLE 4 a.port))

def readAddress (bs : HzBytes) : Option (Address × HzBytes) :=
  (readString bs).bind fun p => (readLE 4 p.2).map fun q => (⟨p.1, q.1⟩, q.2)

theorem readsBack_address (a : Address) (hw : a.Wf) :
    ReadsBack encodeAddress readAddress a := by
  intro bs rest henc
  obtain ⟨b1, b2, h1, h2, rfl⟩ := encSeq_some henc
  cases h2
  unfold readAddress
  simp only [List.append_assoc]
  rw [readsBack_string a.host b1 _ h1]
  simp only [Option.some_bind]
  rw [readLE_bytesLE]
  simp only [Option.map_some']
  rw [Nat.mod_eq_of_lt (show a.port < 256 ^ 4 by
    have h' : a.port < 2 ^ 32 := hw; omega)]

/-- `ReplicaTimestampEntry { key: String, value: i64 }`. -/
structure ReplicaTimestampEntry where
  key : HzString
  value : Int
  deriving DecidableEq

/-- The range invariant of `ReplicaTimestampEntry`'s Rust field types. -/
def ReplicaTimestampEntry.Wf (e : ReplicaTimestampEntry) : Prop :=
  -(2 ^ 63) ≤ e.value ∧ e.value < 2 ^ 63

instance (e : ReplicaTimestampEntry) : Decidable e.Wf :=
  inferInstanceAs (Decidable (_ ∧ _))

def encodeReplicaTimestampEntry (e : ReplicaTimestampEntry) : Option HzBytes :=
  encSeq (encodeString e.key) (some (writeI64 e.value))

def readReplicaTimestampEntry (bs : HzBytes) :
    Option (ReplicaTimestampEntry × HzBytes) :=
  (readString bs).bind fun p => (readI64 p.2).map fun q => (⟨p.1, q.1⟩, q.2)

theorem readsBack_replicaTimestampEntry (e : ReplicaTimestampEntry) (hw : e.Wf) :
    ReadsBack encodeReplicaTimestampEntry readReplicaTimestampEntry e := by
  intro bs rest henc
  obtain ⟨b1, b2, h1, h2, rfl⟩ := encSeq_some henc
  cases h2
  unfold readReplicaTimestampEntry
  simp only [List.append_assoc]
  rw [readsBack_string e.key b1 _ h1]
  simp only [Option.some_bind]
  rw [readI64_writeI64 e.value hw.1 hw.2]
  simp only [Option.map_some']

/-- `AttributeEntry { _key: String, _value: String }`. -/
structure AttributeEntry where
  key : HzString
  value : HzString
  deriving DecidableEq

def encodeAttributeEntry (e : AttributeEntry) : Option HzBytes :=
  encSeq (encodeString e.key) (encodeString e.value)

def readAttributeEntry (bs : HzBytes) : Option (AttributeEntry × HzBytes) :=
  (readString bs).bind fun p => (readString p.2).map fun q => (⟨p.1, q.1⟩, q.2)

theorem readsBack_attributeEntry (e : AttributeEntry) :
    ReadsBack encodeAttributeEntry readAttributeEntry e := by
  intro bs rest henc
  obtain ⟨b1, b2, h1, h2, rfl⟩ := encSeq_some henc
  unfold readAttributeEntry
  simp only [List.append_assoc]
  rw [readsBack_string e.key b1 _ h1]
  simp only [Option.some_bind]
  rw [readsBack_string e.value b2 _ h2]
  simp only [Option.map_some']

/-- `StackTraceEntry { declaring_class, method_name, file_name: Option<String>,
line_number: u32 }` (src/client/src/messaging/mod.rs). -/
structure StackTraceEntry where
  declaringClass : HzString
  methodName : HzString
  fileName : Option HzString
  lineNumber : Nat
  deriving DecidableEq

/-- The range invariant of `StackTraceEntry`'s Rust field types. -/
def StackTraceEntry.Wf (e : StackTraceEntry) : Prop := e.lineNumber < 2 ^ 32

instance (e : StackTraceEntry) : Decidable e.Wf := inferInstanceAs (Decidable (_ < _))

def encodeStackTraceEntry (e : StackTraceEntry) : Option HzBytes :=
  encSeq (encodeString e.declaringClass) (encSeq (encodeString e.methodName)
    (encSeq (encodeOpt encodeString e.fileName) (some (bytesLE 4 e.lineNumber))))

def readStackTraceEntry (bs : HzBytes) : Option (StackTraceEntry × HzBytes) :=
  (readString bs).bind fun p1 =>
  (readString p1.2).bind fun p2 =>
  (readOpt readString p2.2).bind fun p3 =>
  (readLE 4 p3.2).map fun p4 => (⟨p1.1, p2.1, p3.1, p4.1⟩, p4.2)

theorem readsBack_stackTraceEntry (e : StackTraceEntry) (hw : e.Wf) :
    ReadsBack encodeStackTraceEntry readStackTraceEntry e := by
  intro bs rest henc
  obtain ⟨b1, t1, h1, hr1, rfl⟩ := encSeq_some henc
  obtain ⟨b2, t2, h2, hr2, rfl⟩ := encSeq_some hr1
  obtain ⟨b3, b4, h3, h4, rfl⟩ := encSeq_some hr2
  cases h4
  unfold readStackTraceEntry
  simp only [List.append_assoc]
  rw [readsBack_string e.declaringClass b1 _ h1]
  simp only [Option.some_bind]
  rw [readsBack_string e.methodName b2 _ h2]
  simp only [Option.some_bind]
  rw [readsBack_opt encodeString readString e.fileName
    (fun v _ => readsBack_string v) b3 _ h3]
  simp only [Option.some_bind]
  rw [readLE_bytesLE]
  simp only [Option.map_some']
  rw [Nat.mod_eq_of_lt (show e.lineNumber < 256 ^ 4 by
    have h' : e.lineNumber < 2 ^ 32 := hw; omega)]

/-- `ClusterMember { address, id, lite: bool, attributes: Vec<AttributeEntry> }`
(src/client/src/protocol/mod.rs). -/
structure ClusterMember where
  address : Address
  id : HzString
  lite : Bool
  attributes : List AttributeEntry
  deriving DecidableEq

/-- The range invariant of `ClusterMember`'s Rust field types. -/
def ClusterMember.Wf (m : ClusterMember) : Prop := m.address.Wf

instance (m : ClusterMember) : Decidable m.Wf := inferInstanceAs (Decidable (_ < _))

def encodeClusterMember (m : ClusterMember) : Option HzBytes :=
  encSeq (encodeAddress m.address) (encSeq (encodeString m.id)
    (encSeq (some (writeBool m.lite)) (encodeList encodeAttributeEntry m.attributes)))

def readClusterMember (bs : HzBytes) : Option (ClusterMember × HzBytes) :=
  (readAddress bs).bind fun p1 =>
  (readString p1.2).bind fun p2 =>
  (readBool p2.2).bind fun p3 =>
  (readList readAttributeEntry p3.2).map fun p4 => (⟨p1.1, p2.1, p3.1, p4.1⟩, p4.2)

theorem readsBack_clusterMember (m : ClusterMember) (hw : m.Wf) :
    ReadsBack encodeClusterMember readClusterMember m := by
  intro bs rest henc
  obtain ⟨b1, t1, h1, hr1, rfl⟩ := encSeq_some henc
  obtain ⟨b2, t2, h2, hr2, rfl⟩ := encSeq_some hr1
  obtain ⟨b3, b4, h3, h4, rfl⟩ := encSeq_some hr2
  cases h3
  unfold readClusterMember
  simp only [List.append_assoc]
  rw [readsBack_address m.address hw b1 _ h1]
  simp only [Option.some_bind]
  rw [readsBack_string m.id b2 _ h2]
  simp only [Option.some_bind]
  rw [readsBack_bool m.lite _ _ rfl]
  simp only [Option.some_bind]
  rw [readsBack_list encodeAttributeEntry readAttributeEntry m.attributes
    (fun v _ => readsBack_attributeEntry v) b4 _ h4]
  simp only [Option.map_some']

theorem readsBack_u32 (v : Nat) (h : v < 2 ^ 32) :
    ReadsBack (fun v => some (bytesLE 4 v)) (readLE 4) v := by
  intro bs rest henc
  cases henc
  rw [readLE_bytesLE, Nat.mod_eq_of_lt (show v < 256 ^ 4 by omega)]

theorem readsBack_i32 (v : Int) (h1 : -(2 ^ 31) ≤ v) (h2 : v < 2 ^ 31) :
    ReadsBack (fun v => some (writeI32 v)) readI32 v := by
  intro bs rest henc
  cases henc
  exact readI32_writeI32 v h1 h2 rest

theorem readsBack_i64 (v : Int) (h1 : -(2 ^ 63) ≤ v) (h2 : v < 2 ^ 63) :
    ReadsBack (fun v => some (writeI64 v)) readI64 v := by
  intro bs rest henc
  cases henc
  exact readI64_writeI64 v h1 h2 rest

/-- `AuthenticationRequest` (src/client/src/messaging/authentication.rs),
fields in declaration order. -/
structure AuthenticationRequest where
  username : HzString
  password : HzString
  id : Option HzString
  ownerId : Option HzString
  ownerConnection : Bool
  clientType : HzString
  serializationVersion : Nat
  clientVersion : HzString
  deriving DecidableEq

/-- The range invariant of `AuthenticationRequest`'s Rust field types. -/
def AuthenticationRequest.Wf (r : AuthenticationRequest) : Prop :=
  r.serializationVersion < 256

instance (r : AuthenticationRequest) : Decidable r.Wf :=
  inferInstanceAs (Decidable (_ < _))

def encodeAuthenticationRequest (r : AuthenticationRequest) : Option HzBytes :=
  encSeq (encodeString r.username) (encSeq (encodeString r.password)
    (encSeq (encodeOpt encodeString r.id) (encSeq (encodeOpt encodeString r.ownerId)
      (encSeq (some (writeBool r.ownerConnection)) (encSeq (encodeString r.clientType)
        (encSeq (some (writeU8 r.serializationVersion)) (encodeString r.clientVersion)))))))

def readAuthenticationRequest (bs : HzBytes) :
    Option (AuthenticationRequest × HzBytes) :=
  (readString bs).bind fun p1 =>
  (readString p1.2).bind fun p2 =>
  (readOpt readString p2.2).bind fun p3 =>
  (readOpt readString p3.2).bind fun p4 =>
  (readBool p4.2).bind fun p5 =>
  (readString p5.2).bind fun p6 =>
  (readU8 p6.2).bind fun p7 =>
  (readString p7.2).map fun p8 =>
    (⟨p1.1, p2.1, p3.1, p4.1, p5.1, p6.1, p7.1, p8.1⟩, p8.2)

theorem readsBack_authenticationRequest (r : AuthenticationRequest) (hw : r.Wf) :
    ReadsBack encodeAuthenticationRequest readAuthenticationRequest r := by
  intro bs rest henc
  obtain ⟨b1, t1, h1, hr1, rfl⟩ := encSeq_some henc
  obtain ⟨b2, t2, h2, hr2, rfl⟩ := encSeq_some hr1
  obtain ⟨b3, t3, h3, hr3, rfl⟩ := encSeq_some hr2
  obtain ⟨b4, t4, h4, hr4, rfl⟩ := encSeq_some hr3
  obtain ⟨b5, t5, h5, hr5, rfl⟩ := encSeq_some hr4
  obtain ⟨b6, t6, h6, hr6, rfl⟩ := encSeq_some hr5
  obtain ⟨b7, b8, h7, h8, rfl⟩ := encSeq_some hr6
  cases h5
  cases h7
  unfold readAuthenticationRequest
  simp only [List.append_assoc]
  rw [readsBack_string r.username b1 _ h1]
  simp only [Option.some_bind]
  rw [readsBack_string r.password b2 _ h2]
  simp only [Option.some_bind]
  rw [readsBack_opt encodeString readString r.id (fun v _ => readsBack_string v) b3 _ h3]
  simp only [Option.some_bind]
  rw [readsBack_opt encodeString readString r.ownerId (fun v _ => readsBack_string v) b4 _ h4]
  simp only [Option.some_bind]
  rw [readsBack_bool r.ownerConnection _ _ rfl]
  simp only [Option.some_bind]
  rw [readsBack_string r.clientType b6 _ h6]
  simp only [Option.some_bind]
  rw [readsBack_u8 r.serializationVersion hw _ _ rfl]
  simp only [Option.some_bind]
  rw [readsBack_string r.clientVersion b8 _ h8]
  simp only [Option.map_some']

/-- `AuthenticationResponse` (src/client/src/messaging/authentication.rs),
fields in declaration order; the first field is the raw status byte. -/
structure AuthenticationResponse where
  status : Nat
  address : Option Address
  id : Option HzString
  ownerId : Option HzString
  serializationVersion : Nat
  clusterMembers : Option (List ClusterMember)
  deriving DecidableEq

/-- The range invariant of `AuthenticationResponse`'s Rust field types. -/
def AuthenticationResponse.Wf (r : AuthenticationResponse) : Prop :=
  r.status < 256 ∧ r.serializationVersion < 256 ∧ optAll Address.Wf r.address ∧
    optAll (fun ms => ∀ m ∈ ms, ClusterMember.Wf m) r.clusterMembers

instance (r : AuthenticationResponse) : Decidable r.Wf :=
  inferInstanceAs (Decidable (_ ∧ _))

def encodeAuthenticationResponse (r : AuthenticationResponse) : Option HzBytes :=
  encSeq (some (writeU8 r.status)) (encSeq (encodeOpt encodeAddress r.address)
    (encSeq (encodeOpt encodeString r.id) (encSeq (encodeOpt encodeString r.ownerId)
      (encSeq (some (writeU8 r.serializationVersion))
        (encodeOpt (encodeList encodeClusterMember) r.clusterMembers)))))

def readAuthenticationResponse (bs : HzBytes) :
    Option (AuthenticationResponse × HzBytes) :=
  (readU8 bs).bind fun p1 =>
  (readOpt readAddress p1.2).bind fun p2 =>
  (readOpt readString p2.2).bind fun p3 =>
  (readOpt readString p3.2).bind fun p4 =>
  (readU8 p4.2).bind fun p5 =>
  (readOpt (readList readClusterMember) p5.2).map fun p6 =>
    (⟨p1.1, p2.1, p3.1, p4.1, p5.1, p6.1⟩, p6.2)

theorem readsBack_authenticationResponse (r : AuthenticationResponse) (hw : r.Wf) :
    ReadsBack encodeAuthenticationResponse readAuthenticationResponse r := by
  intro bs rest henc
  obtain ⟨b1, t1, h1, hr1, rfl⟩ := encSeq_some henc
  obtain ⟨b2, t2, h2, hr2, rfl⟩ := encSeq_some hr1
  obtain ⟨b3, t3, h3, hr3, rfl⟩ := encSeq_some hr2
  obtain ⟨b4, t4, h4, hr4, rfl⟩ := encSeq_some hr3
  obtain ⟨b5, b6, h5, h6, rfl⟩ := encSeq_some hr4
  cases h1
  cases h5
  unfold readAuthenticationResponse
  simp only [List.append_assoc]
  rw [readsBack_u8 r.status hw.1 _ _ rfl]
  simp only [Option.some_bind]
  rw [readsBack_opt encodeAddress readAddress r.address
    (fun v hv => readsBack_address v (optAll_mem hw.2.2.1 v hv)) b2 _ h2]
  simp only [Option.some_bind]
  rw [readsBack_opt encodeString readString r.id (fun v _ => readsBack_string v) b3 _ h3]
  simp only [Option.some_bind]
  rw [readsBack_opt encodeString readString r.ownerId (fun v _ => readsBack_string v) b4 _ h4]
  simp only [Option.some_bind]
  rw [readsBack_u8 r.serializationVersion hw.2.1 _ _ rfl]
  simp only [Option.some_bind]
  rw [readsBack_opt (encodeList encodeClusterMember) (readList readClusterMember)
    r.clusterMembers (fun ms hms => readsBack_list encodeClusterMember readClusterMember ms
      (fun m hm => readsBack_clusterMember m (optAll_mem hw.2.2.2 ms hms m hm))) b6 _ h6]
  simp only [Option.map_some']

/-- `PingRequest {}` / `PingResponse {}` (src/client/src/messaging/ping.rs):
empty records with an empty payload. -/
structure PingRecord where
  deriving DecidableEq

def encodePingRecord (_ : PingRecord) : Option HzBytes := some []

def readPingRecord (bs : HzBytes) : Option (PingRecord × HzBytes) := some (⟨⟩, bs)

theorem readsBack_pingRecord (p : PingRecord) :
    ReadsBack encodePingRecord readPingRecord p := by
  intro bs rest henc
  cases henc
  rfl

/-- `Exception` (src/client/src/messaging/mod.rs), fields in declaration
order. -/
structure HzException where
  code : Int
  className : HzString
  message : Option HzString
  stackTrace : List StackTraceEntry
  causeErrorCode : Nat
  causeClassName : Option HzString
  deriving DecidableEq

/-- The range invariant of `Exception`'s Rust field types. -/
def HzException.Wf (e : HzException) : Prop :=
  -(2 ^ 31) ≤ e.code ∧ e.code < 2 ^ 31 ∧ e.causeErrorCode < 2 ^ 32 ∧
    ∀ s ∈ e.stackTrace, StackTraceEntry.Wf s

instance (e : HzException) : Decidable e.Wf := inferInstanceAs (Decidable (_ ∧ _))

def encodeHzException (e : HzException) : Option HzBytes :=
  encSeq (some (writeI32 e.code)) (encSeq (encodeString e.className)
    (encSeq (encodeOpt encodeString e.message)
      (encSeq (encodeList encodeStackTraceEntry e.stackTrace)
        (encSeq (some (bytesLE 4 e.causeErrorCode))
          (encodeOpt encodeString e.causeClassName)))))

def readHzException (bs : HzBytes) : Option (HzException × HzBytes) :=
  (readI32 bs).bind fun p1 =>
  (readString p1.2).bind fun p2 =>
  (readOpt readString p2.2).bind fun p3 =>
  (readList readStackTraceEntry p3.2).bind fun p4 =>
  (readLE 4 p4.2).bind fun p5 =>
  (readOpt readString p5.2).map fun p6 =>
    (⟨p1.1, p2.1, p3.1, p4.1, p5.1, p6.1⟩, p6.2)

theorem readsBack_hzException (e : HzException) (hw : e.Wf) :
    ReadsBack encodeHzException readHzException e := by
  intro bs rest henc
  obtain ⟨b1, t1, h1, hr1, rfl⟩ := encSeq_some henc
  obtain ⟨b2, t2, h2, hr2, rfl⟩ := encSeq_some hr1
  obtain ⟨b3, t3, h3, hr3, rfl⟩ := encSeq_some hr2
  obtain ⟨b4, t4, h4, hr4, rfl⟩ := encSeq_some hr3
  obtain ⟨b5, b6, h5, h6, rfl⟩ := encSeq_some hr4
  cases h1
  cases h5
  unfold readHzException
  simp only [List.append_assoc]
  rw [readsBack_i32 e.code hw.1 hw.2.1 _ _ rfl]
  simp only [Option.some_bind]
  rw [readsBack_string e.className b2 _ h2]
  simp only [Option.some_bind]
  rw [readsBack_opt encodeString readString e.message (fun v _ => readsBack_string v) b3 _ h3]
  simp only [Option.some_bind]
  rw [readsBack_list encodeStackTraceEntry readStackTraceEntry e.stackTrace
    (fun s hs => readsBack_stackTraceEntry s (hw.2.2.2 s hs)) b4 _ h4]
  simp only [Option.some_bind]
  rw [readsBack_u32 e.causeErrorCode hw.2.2.1 _ _ rfl]
  simp only [Option.some_bind]
  rw [readsBack_opt encodeString readString e.causeClassName
    (fun v _ => readsBack_string v) b6 _ h6]
  simp only [Option.map_some']

/-- `PnCounterGetRequest` (src/client/src/messaging/pn_counter.rs), fields in
declaration order: name, replica timestamps, address. -/
structure PnCounterGetRequest where
  name : HzString
  replicaTimestamps : List ReplicaTimestampEntry
  address : Address
  deriving DecidableEq

/-- The range invariant of `PnCounterGetRequest`'s Rust field types. -/
def PnCounterGetRequest.Wf (r : PnCounterGetRequest) : Prop :=
  (∀ e ∈ r.replicaTimestamps, ReplicaTimestampEntry.Wf e) ∧ r.address.Wf

instance (r : PnCounterGetRequest) : Decidable r.Wf :=
  inferInstanceAs (Decidable (_ ∧ _))

def encodePnCounterGetRequest (r : PnCounterGetRequest) : Option HzBytes :=
  encSeq (encodeString r.name)
    (encSeq (encodeList encodeReplicaTimestampEntry r.replicaTimestamps)
      (encodeAddress r.address))

def readPnCounterGetRequest (bs : HzBytes) :
    Option (PnCounterGetRequest × HzBytes) :=
  (readString bs).bind fun p1 =>
  (readList readReplicaTimestampEntry p1.2).bind fun p2 =>
  (readAddress p2.2).map fun p3 => (⟨p1.1, p2.1, p3.1⟩, p3.2)

theorem readsBack_pnCounterGetRequest (r : PnCounterGetRequest) (hw : r.Wf) :
    ReadsBack encodePnCounterGetRequest readPnCounterGetRequest r := by
  intro bs rest henc
  obtain ⟨b1, t1, h1, hr1, rfl⟩ := encSeq_some henc
  obtain ⟨b2, b3, h2, h3, rfl⟩ := encSeq_some hr1
  unfold readPnCounterGetRequest
  simp only [List.append_assoc]
  rw [readsBack_string r.name b1 _ h1]
  simp only [Option.some_bind]
  rw [readsBack_list encodeReplicaTimestampEntry readReplicaTimestampEntry
    r.replicaTimestamps (fun e he => readsBack_replicaTimestampEntry e (hw.1 e he)) b2 _ h2]
  simp only [Option.some_bind]
  rw [readsBack_address r.address hw.2 b3 _ h3]
  simp only [Option.map_some']

/-- `PnCounterGetResponse`, fields in declaration order: value, replica
timestamps. -/
structure PnCounterGetResponse where
  value : Int
  replicaTimestamps : List ReplicaTimestampEntry
  deriving DecidableEq

/-- The range invariant of `PnCounterGetResponse`'s Rust field types. -/
def PnCounterGetResponse.Wf (r : PnCounterGetResponse) : Prop :=
  -(2 ^ 63) ≤ r.value ∧ r.value < 2 ^ 63 ∧
    ∀ e ∈ r.replicaTimestamps, ReplicaTimestampEntry.Wf e

instance (r : PnCounterGetResponse) : Decidable r.Wf :=
  inferInstanceAs (Decidable (_ ∧ _))

def encodePnCounterGetResponse (r : PnCounterGetResponse) : Option HzBytes :=
  encSeq (some (writeI64 r.value))
    (encodeList encodeReplicaTimestampEntry r.replicaTimestamps)

def readPnCounterGetResponse (bs : HzBytes) :
    Option (PnCounterGetResponse × HzBytes) :=
  (readI64 bs).bind fun p1 =>
  (readList readReplicaTimestampEntry p1.2).map fun p2 => (⟨p1.1, p2.1⟩, p2.2)

theorem readsBack_pnCounterGetResponse (r : PnCounterGetResponse) (hw : r.Wf) :
    ReadsBack encodePnCounterGetResponse readPnCounterGetResponse r := by
  intro bs rest henc
  obtain ⟨b1, b2, h1, h2, rfl⟩ := encSeq_some henc
  cases h1
  unfold readPnCounterGetResponse
  simp only [List.append_assoc]
  rw [readsBack_i64 r.value hw.1 hw.2.1 _ _ rfl]
  simp only [Option.some_bind]
  rw [readsBack_list encodeReplicaTimestampEntry readReplicaTimestampEntry
    r.replicaTimestamps (fun e he => readsBack_replicaTimestampEntry e (hw.2.2 e he)) b2 _ h2]
  simp only [Option.map_some']

/-- `PnCounterAddRequest`, fields in declaration order: name, delta,
get-before-update flag, replica timestamps, address. -/
structure PnCounterAddRequest where
  name : HzString
  delta : Int
  getBeforeUpdate : Bool
  replicaTimestamps : List ReplicaTimestampEntry
  address : Address
  deriving DecidableEq

/-- The range invariant of `PnCounterAddRequest`'s Rust field types. -/
def PnCounterAddRequest.Wf (r : PnCounterAddRequest) : Prop :=
  -(2 ^ 63) ≤ r.delta ∧ r.delta < 2 ^ 63 ∧
    (∀ e ∈ r.replicaTimestamps, ReplicaTimestampEntry.Wf e) ∧ r.address.Wf

instance (r : PnCounterAddRequest) : Decidable r.Wf :=
  inferInstanceAs (Decidable (_ ∧ _))

def encodePnCounterAddRequest (r : PnCounterAddRequest) : Option HzBytes :=
  encSeq (encodeString r.name) (encSeq (some (writeI64 r.delta))
    (encSeq (some (writeBool r.getBeforeUpdate))
      (encSeq (encodeList encodeReplicaTimestampEntry r.replicaTimestamps)
        (encodeAddress r.address))))

def readPnCounterAddRequest (bs : HzBytes) :
    Option (PnCounterAddRequest × HzBytes) :=
  (readString bs).bind fun p1 =>
  (readI64 p1.2).bind fun p2 =>
  (readBool p2.2).bind fun p3 =>
  (readList readReplicaTimestampEntry p3.2).bind fun p4 =>
  (readAddress p4.2).map fun p5 => (⟨p1.1, p2.1, p3.1, p4.1, p5.1⟩, p5.2)

theorem readsBack_pnCounterAddRequest (r : PnCounterAddRequest) (hw : r.Wf) :
    ReadsBack encodePnCounterAddRequest readPnCounterAddRequest r := by
  intro bs rest henc
  obtain ⟨b1, t1, h1, hr1, rfl⟩ := encSeq_some henc
  obtain ⟨b2, t2, h2, hr2, rfl⟩ := encSeq_some hr1
  obtain ⟨b3, t3, h3, hr3, rfl⟩ := encSeq_some hr2
  obtain ⟨b4, b5, h4, h5, rfl⟩ := encSeq_some hr3
  cases h2
  cases h3
  unfold readPnCounterAddRequest
  simp only [List.append_assoc]
  rw [readsBack_string r.name b1 _ h1]
  simp only [Option.some_bind]
  rw [readsBack_i64 r.delta hw.1 hw.2.1 _ _ rfl]
  simp only [Option.some_bind]
  rw [readsBack_bool r.getBeforeUpdate _ _ rfl]
  simp only [Option.some_bind]
  rw [readsBack_list encodeReplicaTimestampEntry readReplicaTimestampEntry
    r.replicaTimestamps (fun e he => readsBack_replicaTimestampEntry e (hw.2.2.1 e he)) b4 _ h4]
  simp only [Option.some_bind]
  rw [readsBack_address r.address hw.2.2.2 b5 _ h5]
  simp only [Option.map_some']

/-- `PnCounterAddResponse`, fields in declaration order: value, replica
timestamps, replica count. -/
structure PnCounterAddResponse where
  value : Int
  replicaTimestamps : List ReplicaTimestampEntry
  replicaCount : Nat
  deriving DecidableEq

/-- The range invariant of `PnCounterAddResponse`'s Rust field types. -/
def PnCounterAddResponse.Wf (r : PnCounterAddResponse) : Prop :=
  -(2 ^ 63) ≤ r.value ∧ r.value < 2 ^ 63 ∧ r.replicaCount < 2 ^ 32 ∧
    ∀ e ∈ r.replicaTimestamps, ReplicaTimestampEntry.Wf e

instance (r : PnCounterAddResponse) : Decidable r.Wf :=
  inferInstanceAs (Decidable (_ ∧ _))

def encodePnCounterAddResponse (r : PnCounterAddResponse) : Option HzBytes :=
  encSeq (some (writeI64 r.value))
    (encSeq (encodeList encodeReplicaTimestampEntry r.replicaTimestamps)
      (some (bytesLE 4 r.replicaCount)))

def readPnCounterAddResponse (bs : HzBytes) :
    Option (PnCounterAddResponse × HzBytes) :=
  (readI64 bs).bind fun p1 =>
  (readList readReplicaTimestampEntry p1.2).bind fun p2 =>
  (readLE 4 p2.2).map fun p3 => (⟨p1.1, p2.1, p3.1⟩, p3.2)

theorem readsBack_pnCounterAddResponse (r : PnCounterAddResponse) (hw : r.Wf) :
    ReadsBack encodePnCounterAddResponse readPnCounterAddResponse r := by
  intro bs rest henc
  obtain ⟨b1, t1, h1, hr1, rfl⟩ := encSeq_some henc
  obtain ⟨b2, b3, h2, h3, rfl⟩ := encSeq_some hr1
  cases h1
  cases h3
  unfold readPnCounterAddResponse
  simp only [List.append_assoc]
  rw [readsBack_i64 r.value hw.1 hw.2.1 _ _ rfl]
  simp only [Option.some_bind]
  rw [readsBack_list encodeReplicaTimestampEntry readReplicaTimestampEntry
    r.replicaTimestamps (fun e he => readsBack_replicaTimestampEntry e (hw.2.2.2 e he)) b2 _ h2]
  simp only [Option.some_bind]
  rw [readsBack_u32 r.replicaCount hw.2.2.1 _ _ rfl]
  simp only [Option.map_some']

/-- `PnCounterGetReplicaCountRequest`: a single name field. -/
structure PnCounterGetReplicaCountRequest where
  name : HzString
  deriving DecidableEq

def encodePnCounterGetReplicaCountRequest (r : PnCounterGetReplicaCountRequest) :
    Option HzBytes :=
  encodeString r.name

def readPnCounterGetReplicaCountRequest (bs : HzBytes) :
    Option (PnCounterGetReplicaCountRequest × HzBytes) :=
  (readString bs).map fun p => (⟨p.1⟩, p.2)

theorem readsBack_pnCounterGetReplicaCountRequest (r : PnCounterGetReplicaCountRequest) :
    ReadsBack encodePnCounterGetReplicaCountRequest readPnCounterGetReplicaCountRequest r := by
  intro bs rest henc
  unfold readPnCounterGetReplicaCountRequest
  rw [readsBack_string r.name bs rest henc]
  simp only [Option.map_some']

/-- `PnCounterGetReplicaCountResponse`: a single `u32` count field. -/
structure PnCounterGetReplicaCountResponse where
  count : Nat
  deriving DecidableEq

/-- The range invariant of `PnCounterGetReplicaCountResponse`'s Rust field
types. -/
def PnCounterGetReplicaCountResponse.Wf (r : PnCounterGetReplicaCountResponse) :
    Prop :=
  r.count < 2 ^ 32

instance (r : PnCounterGetReplicaCountResponse) : Decidable r.Wf :=
  inferInstanceAs (Decidable (_ < _))

def encodePnCounterGetReplicaCountResponse (r : PnCounterGetReplicaCountResponse) :
    Option HzBytes :=
  some (bytesLE 4 r.count)

def readPnCounterGetReplicaCountResponse (bs : HzBytes) :
    Option (PnCounterGetReplicaCountResponse × HzBytes) :=
  (readLE 4 bs).map fun p => (⟨p.1⟩, p.2)

theorem readsBack_pnCounterGetReplicaCountResponse
    (r : PnCounterGetReplicaCountResponse) (hw : r.Wf) :
    ReadsBack encodePnCounterGetReplicaCountResponse
      readPnCounterGetReplicaCountResponse r := by
  intro bs rest henc
  cases henc
  unfold readPnCounterGetReplicaCountResponse
  rw [readsBack_u32 r.count hw _ _ rfl]
  simp only [Option.map_some']

/-! ### Frame codec (src/client/src/remote/mod.rs, src/src/remote/mod.rs)

`impl From<(u64, R)> for Message` writes, after the 4-byte length prefix that
the length-delimited transport codec adds: protocol version `1`, flags
`0xC0`, the message type (`u16` LE), the correlation id (`u64` LE), the
partition id (`i32` LE), the data offset `22` (`u16` LE), then the payload.
`impl From<Bytes> for Message` reads the header back, skips
`data_offset - 22` reserved bytes and keeps the remainder as the payload. -/

def PROTOCOL_VERSION : Nat := 1

/-- `BEGIN_MESSAGE | END_MESSAGE = 0x80 | 0x40`. -/
def UNFRAGMENTED_MESSAGE : Nat := 0xC0

def HEADER_LENGTH : Nat := 22

/-- `Request::partition_id()` default (src/client/src/messaging/mod.rs):
every request in the core is non-partition-targeted. -/
def requestPartitionId : Int := -1

/-- The frame bytes after the length field, as written by
`impl From<(u64, R)> for Message`. -/
def encodeFrame (cid : Nat) (mtype : Nat) (partitionId : Int) (payload : HzBytes) :
    HzBytes :=
  writeU8 PROTOCOL_VERSION ++ writeU8 UNFRAGMENTED_MESSAGE ++ bytesLE 2 mtype ++
    bytesLE 8 cid ++ writeI32 partitionId ++ bytesLE 2 HEADER_LENGTH ++ payload

/-- `impl From<Bytes> for Message`: read the header fields, skip
`data_offset - 22` bytes (`usize` subtraction panics below 22), return
`(correlation id, message type, payload)`. -/
def decodeFrame (bs : HzBytes) : Option (Nat × Nat × HzBytes) :=
  (readU8 bs).bind fun pv =>
  (readU8 pv.2).bind fun pf =>
  (readLE 2 pf.2).bind fun pt =>
  (readLE 8 pt.2).bind fun pc =>
  (readI32 pc.2).bind fun pp =>
  (readLE 2 pp.2).bind fun pd =>
  if pd.1 < HEADER_LENGTH then none
  else (skipBytes (pd.1 - HEADER_LENGTH) pd.2).map fun r => (pc.1, pt.1, r)

theorem decodeFrame_encodeFrame (cid mtype : Nat) (payload : HzBytes)
    (hc : cid < 2 ^ 64) (ht : mtype < 2 ^ 16) :
    decodeFrame (encodeFrame cid mtype requestPartitionId payload) =
      some (cid, mtype, payload) := by
  unfold decodeFrame encodeFrame
  simp only [writeU8, PROTOCOL_VERSION, UNFRAGMENTED_MESSAGE, List.cons_append,
    List.nil_append, List.append_assoc, readU8, Option.some_bind]
  rw [readLE_bytesLE]
  simp only [Option.some_bind]
  rw [readLE_bytesLE]
  simp only [Option.some_bind]
  rw [readI32_writeI32 requestPartitionId (by norm_num [requestPartitionId])
    (by norm_num [requestPartitionId])]
  simp only [Option.some_bind]
  rw [readLE_bytesLE]
  simp only [Option.some_bind]
  rw [Nat.mod_eq_of_lt (show cid < 256 ^ 8 by omega),
    Nat.mod_eq_of_lt (show mtype < 256 ^ 2 by omega)]
  rw [if_neg (by norm_num [HEADER_LENGTH])]
  simp [skipBytes, HEADER_LENGTH]

/-! ### Errors and the member registry (src/client/src/lib.rs,
src/client/src/remote/cluster.rs) -/

/-- `HazelcastClientError` error kinds; `invalidCredentials` is the variant
that `Member::connect` (src/client/src/remote/member.rs) raises on a failed
authentication, `authenticationFailure` the status-text-carrying variant of
src/client/src/lib.rs. -/
inductive HzError where
  | authenticationFailure (statusText : String)
  | invalidCredentials
  | nodeNonOperational
  | clusterNonOperational
  | communicationFailure
  | serverFailure (e : HzException)
  deriving DecidableEq

/-- `Registry<K, V>`: the enabled entries as an insertion-ordered vector and
a key-indexed map, the disabled key set, and the round-robin sequencer. -/
structure Registry (K V : Type) where
  vec : List (K × V)
  map : K → Option V
  disabled : List K
  sequencer : Nat

/-- `Registry::new`: the enabled entries populate both the vector and the
map; the sequencer starts at zero. -/
def Registry.new [DecidableEq K] (enabled : List (K × V)) (disabled : List K) :
    Registry K V :=
  { vec := enabled
    map := fun k => (enabled.find? fun e => decide (e.1 = k)).map Prod.snd
    disabled := disabled
    sequencer := 0 }

/-- `Registry::get`: `none` on an empty vector, otherwise the entry at the
current sequence number modulo the vector length, value projected, with
the sequencer advanced (`fetch_add`). -/
def Registry.get (r : Registry K V) : Option V × Registry K V :=
  if r.vec.isEmpty then (none, r)
  else ((r.vec.get? (r.sequencer % r.vec.length)).map Prod.snd,
    { r with sequencer := r.sequencer + 1 })

/-- `Registry::get_by`: map lookup. -/
def Registry.getBy (r : Registry K V) (k : K) : Option V := r.map k

/-- `Registry::get_all`: the enabled values in vector order. -/
def Registry.getAll (r : Registry K V) : List V := r.vec.map Prod.snd

/-- `Registry::disable`: remove the first vector entry with the key, remove
the key from the map, and remember it as disabled. -/
def Registry.disable [DecidableEq K] (r : Registry K V) (k : K) : Registry K V :=
  { vec := r.vec.eraseP fun e => decide (e.1 = k)
    map := fun q => if q = k then none else r.map q
    disabled := k :: r.disabled
    sequencer := r.sequencer }

/-- An interaction with the registry: a round-robin selection or a disable. -/
inductive RegOp (K : Type) where
  | get
  | disable (k : K)

def Registry.applyOp [DecidableEq K] (r : Registry K V) : RegOp K → Registry K V
  | .get => (Registry.get r).2
  | .disable k => Registry.disable r k

def Registry.applyOps [DecidableEq K] (r : Registry K V) (ops : List (RegOp K)) :
    Registry K V :=
  ops.foldl Registry.applyOp r

/-- Iterate `Registry::get`, keeping only the final state. -/
def Registry.afterGets (r : Registry K V) : Nat → Registry K V
  | 0 => r
  | i + 1 => ((r.afterGets i).get).2

theorem Registry.get_vec (r : Registry K V) : (Registry.get r).2.vec = r.vec := by
  unfold Registry.get
  split <;> rfl

theorem Registry.get_map (r : Registry K V) : (Registry.get r).2.map = r.map := by
  unfold Registry.get
  split <;> rfl

theorem Registry.afterGets_vec (r : Registry K V) (i : Nat) :
    (r.afterGets i).vec = r.vec := by
  induction i with
  | zero => rfl
  | succ i ih => rw [Registry.afterGets, Registry.get_vec, ih]

theorem Registry.afterGets_sequencer (r : Registry K V) (h : r.vec ≠ []) (i : Nat) :
    (r.afterGets i).sequencer = r.sequencer + i := by
  induction i with
  | zero => rfl
  | succ i ih =>
    rw [Registry.afterGets]
    unfold Registry.get
    rw [if_neg (by rw [Registry.afterGets_vec]; simpa using h)]
    simp only [ih]
    omega

/-- The selection returned by the `i`-th consecutive `Registry::get`. -/
def Registry.selectionAt (r : Registry K V) (i : Nat) : Option V :=
  ((r.afterGets i).get).1

theorem Registry.selectionAt_eq (r : Registry K V) (h : r.vec ≠ []) (i : Nat) :
    r.selectionAt i = (r.vec.get? ((r.sequencer + i) % r.vec.length)).map Prod.snd := by
  unfold Registry.selectionAt Registry.get
  rw [if_neg (by rw [Registry.afterGets_vec]; simpa using h)]
  rw [Registry.afterGets_sequencer r h i, Registry.afterGets_vec]

theorem keys_eraseP_not_mem [DecidableEq K] (l : List (K × V)) (k : K)
    (h : (l.map Prod.fst).Nodup) :
    k ∉ (l.eraseP fun e => decide (e.1 = k)).map Prod.fst := by
  induction l with
  | nil => simp [List.eraseP]
  | cons a l ih =>
    simp only [List.map_cons, List.nodup_cons] at h
    by_cases hk : a.1 = k
    · rw [List.eraseP_cons,
        show (decide (a.1 = k)) = true by simp [hk], cond_true]
      intro hmem
      exact h.1 (by
        obtain ⟨e, he, hek⟩ := List.exists_of_mem_map hmem
        rw [hk]
        exact hek ▸ List.mem_map_of_mem Prod.fst he)
    · rw [List.eraseP_cons,
        show (decide (a.1 = k)) = false by simp [hk], cond_false]
      intro hmem
      rw [List.map_cons] at hmem
      rcases List.mem_cons.1 hmem with hh | hh
      · exact hk hh.symm
      · exact ih h.2 hh

theorem keys_applyOp_not_mem [DecidableEq K] (r : Registry K V) (a : K)
    (hnot : a ∉ r.vec.map Prod.fst) (op : RegOp K) :
    a ∉ (r.applyOp op).vec.map Prod.fst := by
  cases op with
  | get => rw [Registry.applyOp, Registry.get_vec]; exact hnot
  | disable k =>
    intro hmem
    apply hnot
    obtain ⟨e, he, hek⟩ := List.exists_of_mem_map hmem
    exact hek ▸ List.mem_map_of_mem Prod.fst (List.mem_of_mem_eraseP he)

theorem map_applyOp_none [DecidableEq K] (r : Registry K V) (a : K)
    (hnone : r.map a = none) (op : RegOp K) : (r.applyOp op).map a = none := by
  cases op with
  | get => rw [Registry.applyOp, Registry.get_map]; exact hnone
  | disable k =>
    simp only [Registry.applyOp, Registry.disable]
    split
    · rfl
    · exact hnone

theorem applyOps_preserves_absent [DecidableEq K] (r : Registry K V) (a : K)
    (hvec : a ∉ r.vec.map Prod.fst) (hmap : r.map a = none) (ops : List (RegOp K)) :
    a ∉ (r.applyOps ops).vec.map Prod.fst ∧ (r.applyOps ops).map a = none := by
  induction ops generalizing r with
  | nil => exact ⟨hvec, hmap⟩
  | cons op ops ih =>
    have h := ih (r.applyOp op) (keys_applyOp_not_mem r a hvec op)
      (map_applyOp_none r a hmap op)
    simpa [Registry.applyOps, List.foldl_cons] using h

theorem disabled_stays_out [DecidableEq K] (r : Registry K V) (a : K)
    (hnodup : (r.vec.map Prod.fst).Nodup) (ops : List (RegOp K)) :
    a ∉ ((r.disable a).applyOps ops).vec.map Prod.fst ∧
      ((r.disable a).applyOps ops).getBy a = none := by
  have h := applyOps_preserves_absent (r.disable a) a
    (keys_eraseP_not_mem r.vec a hnodup) (by simp [Registry.disable]) ops
  exact ⟨h.1, h.2⟩

/-- `Cluster::dispatch`: pick an enabled member by round-robin and forward
the request to it; fail `ClusterNonOperational` when no member is enabled. -/
def clusterDispatch (r : Registry K V) : Except HzError V × Registry K V :=
  match Registry.get r with
  | (none, r') => (.error .clusterNonOperational, r')
  | (some m, r') => (.ok m, r')

/-- `Cluster::address`: return the preferred address when it belongs to an
enabled member, otherwise the round-robin member's address, otherwise fail
`ClusterNonOperational`. The registry is keyed by the member's own address,
so the member is modelled by its address (`V = K`). -/
def clusterAddress [DecidableEq K] (r : Registry K K) (preferred : Option K) :
    Except HzError K × Registry K K :=
  match preferred.bind fun a => (r.getBy a).map fun _ => a with
  | some a => (.ok a, r)
  | none =>
    match Registry.get r with
    | (some m, r') => (.ok m, r')
    | (none, r') => (.error .clusterNonOperational, r')

theorem Registry.get_of_nonempty (r : Registry K V) (h : r.vec ≠ []) :
    Registry.get r =
      ((r.vec.get? (r.sequencer % r.vec.length)).map Prod.snd,
        { r with sequencer := r.sequencer + 1 }) := by
  unfold Registry.get
  rw [if_neg (by simpa using h)]

theorem Registry.get?_mod_isSome (r : Registry K V) (h : r.vec ≠ []) (s : Nat) :
    ∃ e, r.vec.get? (s % r.vec.length) = some e := by
  have hpos : 0 < r.vec.length := List.length_pos.2 h
  have hlt : s % r.vec.length < r.vec.length := Nat.mod_lt _ hpos
  cases he : r.vec.get? (s % r.vec.length) with
  | none => exact absurd (List.get?_eq_none.1 he) (by omega)
  | some e => exact ⟨e, rfl⟩

/-- The member one PN-counter operation targets
(src/client/src/protocol/pn_counter.rs `get`/`add` with
src/client/src/remote/cluster.rs): resolve an address for the request
payload — the handle stores no address, so no preference is passed and the
resolution is itself a round-robin selection (`expect("missing address!")`
panics when it fails: `none`) — then dispatch the request through an
independent round-robin selection; the dispatched member is the target. -/
def counterOpTarget [DecidableEq K] (r : Registry K K) : Option K × Registry K K :=
  match clusterAddress r none with
  | (.error _, r') => (none, r')
  | (.ok _, r') =>
    match clusterDispatch r' with
    | (.error _, r'') => (none, r'')
    | (.ok m, r'') => (some m, r'')

theorem counterOpTarget_eq [DecidableEq K] (r : Registry K K) (h : r.vec ≠ []) :
    (counterOpTarget r).1 =
        (r.vec.get? ((r.sequencer + 1) % r.vec.length)).map Prod.snd ∧
      (counterOpTarget r).2.vec = r.vec ∧
      (counterOpTarget r).2.sequencer = r.sequencer + 2 := by
  obtain ⟨e1, he1⟩ := Registry.get?_mod_isSome r h r.sequencer
  have h2 : ({ r with sequencer := r.sequencer + 1 } : Registry K K).vec = r.vec := rfl
  obtain ⟨e2, he2⟩ := Registry.get?_mod_isSome
    ({ r with sequencer := r.sequencer + 1 }) (by rw [h2]; exact h) (r.sequencer + 1)
  unfold counterOpTarget clusterAddress clusterDispatch
  simp only [Option.none_bind]
  rw [Registry.get_of_nonempty r h, he1]
  simp only [Option.map_some']
  rw [Registry.get_of_nonempty _ (by rw [h2]; exact h)]
  simp only [h2] at he2 ⊢
  rw [he2]
  simp only [Option.map_some']
  exact ⟨trivial, trivial, trivial⟩

/-- The modular-arithmetic core of round-robin coverage: starting at
sequence `s`, the selection made `(j + n - s % n) % n` steps later lands on
index `j`. -/
theorem rotation_index (s j n : Nat) (hpos : 0 < n) (hj : j < n) :
    (s + (j + n - s % n) % n) % n = j := by
  have hs : s % n < n := Nat.mod_lt _ hpos
  rw [Nat.add_mod s]
  by_cases hle : s % n ≤ j
  · have h1 : j + n - s % n = (j - s % n) + n := by omega
    rw [h1, Nat.add_mod_right,
      Nat.mod_eq_of_lt (show j - s % n < n by omega),
      Nat.mod_eq_of_lt (show j - s % n < n by omega),
      show s % n + (j - s % n) = j by omega, Nat.mod_eq_of_lt hj]
  · rw [Nat.mod_eq_of_lt (show j + n - s % n < n by omega),
      Nat.mod_eq_of_lt (show j + n - s % n < n by omega),
      show s % n + (j + n - s % n) = j + n by omega,
      Nat.add_mod_right, Nat.mod_eq_of_lt hj]

/-! ### Cluster construction (src/client/src/remote/cluster.rs
`Members::from`, `Cluster::init`)

Each seed endpoint's `Member::connect` attempt either yields a member
(keyed by its server-reported address) or an error; failures are logged and
the endpoint recorded as disconnected. The endpoint is modelled together
with its connection outcome, so construction is a pure function of the
outcomes. -/

/-- `Members::from`: successful connections populate the enabled registry,
failed endpoints the disabled set. It cannot fail. -/
def membersFrom [DecidableEq K] (results : List (K × Except Unit (K × V))) :
    Registry K V :=
  Registry.new
    (results.filterMap fun p => p.2.toOption)
    (results.filterMap fun p =>
      match p.2 with
      | .error _ => some p.1
      | .ok _ => none)

/-- `Cluster::init`: build the member registry and spawn the pinger; the
construction itself always succeeds. -/
def clusterInit [DecidableEq K] (results : List (K × Except Unit (K × V))) :
    Except HzError (Registry K V) :=
  .ok (membersFrom results)

theorem membersFrom_vec_of_all_failed [DecidableEq K]
    (results : List (K × Except Unit (K × V)))
    (h : ∀ p ∈ results, p.2.toOption = none) : (membersFrom results).vec = [] := by
  unfold membersFrom Registry.new
  simp only
  rw [List.filterMap_eq_nil_iff]
  intro p hp
  exact h p hp

/-! ### Channel event loop (src/client/src/remote/channel.rs)

`Channel::send` encodes the frame into a buffer, creates a one-shot slot and
queues `(frame, correlation id, slot)`. The single background task processes
one event at a time: an Egress event writes the frame to the socket and then
inserts the slot into the correlation table; an Ingress event decodes the
frame and removes the slot by correlation id, panicking
(`expect("missing correlation!")`) when no slot exists, and ignoring the
result of fulfilling the slot. -/

inductive ChanEvent where
  | egress (cid : Nat)
  | ingress (cid : Nat)
  deriving DecidableEq

inductive ChanAction where
  | prepareFrame (cid : Nat)
  | enqueue (cid : Nat)
  | socketWrite (cid : Nat)
  | registerSlot (cid : Nat)
  | lookupSlot (cid : Nat)
  | fulfilSlot (cid : Nat)
  | panicMissing (cid : Nat)
  deriving DecidableEq

/-- `Channel::send` (lines 83-89): encode the frame into a buffer, then hand
it to the event loop's queue. -/
def sendActions (cid : Nat) : List ChanAction :=
  [.prepareFrame cid, .enqueue cid]

/-- The Egress arm of the event loop (lines 57-61): `writer.write(frame)`
first, `correlations.insert(correlation_id, responder)` second. -/
def egressActions (cid : Nat) : List ChanAction :=
  [.socketWrite cid, .registerSlot cid]

/-- The sequential event loop over the correlation table (a multiset of
registered correlation ids); the second component records whether the task
panicked (`expect("missing correlation!")`), which terminates it. -/
def loopRun (table : List Nat) : List ChanEvent → List ChanAction × Bool
  | [] => ([], false)
  | .egress c :: evs =>
    let k := loopRun (c :: table) evs
    (egressActions c ++ k.1, k.2)
  | .ingress c :: evs =>
    if c ∈ table then
      let k := loopRun (table.erase c) evs
      (.lookupSlot c :: .fulfilSlot c :: k.1, k.2)
    else
      ([.lookupSlot c, .panicMissing c], true)

/-- Whether a trace contains an action. -/
def containsAction (a : ChanAction) : List ChanAction → Bool
  | [] => false
  | x :: tr => if x = a then true else containsAction a tr

/-- Whether, scanning the trace left to right, action `a` occurs before the
first occurrence of action `b`. -/
def occursBefore (a b : ChanAction) : List ChanAction → Bool
  | [] => false
  | x :: tr =>
    if x = a then containsAction b tr
    else if x = b then false
    else occursBefore a b tr

/-- The number of egress events carrying correlation id `c`. -/
def countEgress (c : Nat) : List ChanEvent → Nat
  | [] => 0
  | .egress q :: evs => (if q = c then 1 else 0) + countEgress c evs
  | .ingress _ :: evs => countEgress c evs

/-- The number of ingress events carrying correlation id `c`. -/
def countIngress (c : Nat) : List ChanEvent → Nat
  | [] => 0
  | .egress _ :: evs => countIngress c evs
  | .ingress q :: evs => (if q = c then 1 else 0) + countIngress c evs

/-- Every inbound frame matched by an earlier outbound registration: in every
prefix of the event list, no correlation id has more ingress events than
egress events plus its initial multiplicity in the table. -/
def SlotBalanced (table : List Nat) (evs : List ChanEvent) : Prop :=
  ∀ k c, countIngress c (evs.take k) ≤ countEgress c (evs.take k) + table.count c

theorem balanced_cons_egress {table : List Nat} {c : Nat} {evs : List ChanEvent}
    (h : SlotBalanced table (.egress c :: evs)) : SlotBalanced (c :: table) evs := by
  intro k q
  have hk := h (k + 1) q
  simp only [List.take_succ_cons, countIngress, countEgress] at hk
  by_cases hqc : q = c
  · subst hqc
    rw [List.count_cons_self]
    rw [if_pos rfl] at hk
    omega
  · rw [List.count_cons_of_ne hqc]
    rw [if_neg (fun hcq => hqc hcq.symm)] at hk
    omega

theorem balanced_cons_ingress {table : List Nat} {c : Nat} {evs : List ChanEvent}
    (h : SlotBalanced table (.ingress c :: evs)) :
    c ∈ table ∧ SlotBalanced (table.erase c) evs := by
  have hmem : c ∈ table := by
    have h1 := h 1 c
    rw [show (ChanEvent.ingress c :: evs).take 1 = [ChanEvent.ingress c] from rfl] at h1
    simp [countIngress, countEgress] at h1
    exact h1
  refine ⟨hmem, ?_⟩
  intro k q
  have hk := h (k + 1) q
  simp only [List.take_succ_cons, countIngress, countEgress] at hk
  by_cases hqc : q = c
  · subst hqc
    rw [List.count_erase_self]
    rw [if_pos rfl] at hk
    have hcnt : 1 ≤ table.count q := List.count_pos_iff.2 hmem
    omega
  · rw [List.count_erase_of_ne hqc]
    rw [if_neg (fun hcq => hqc hcq.symm)] at hk
    omega

/-- With every inbound frame matched by an earlier registration, the event
loop never hits the missing-correlation panic. -/
theorem loopRun_no_panic (evs : List ChanEvent) :
    ∀ table, SlotBalanced table evs → (loopRun table evs).2 = false := by
  induction evs with
  | nil => intro table _; rfl
  | cons e evs ih =>
    intro table hbal
    cases e with
    | egress c =>
      simp only [loopRun]
      exact ih (c :: table) (balanced_cons_egress hbal)
    | ingress c =>
      obtain ⟨hmem, hbal'⟩ := balanced_cons_ingress hbal
      simp only [loopRun, if_pos hmem]
      exact ih (table.erase c) hbal'

/-- One entry of the correlation table: the id and whether the waiting
receiver is still alive (dropping the receiver does not remove the entry). -/
abbrev CorrelationTable := List (Nat × Bool)

/-- The Ingress arm of the event loop (src/client/src/remote/channel.rs
lines 62-71): remove the slot by correlation id —
`expect("missing correlation!")` panics when it is absent (`none`) — then
send the message into the slot, ignoring the result (`match ... { _ => {} }`),
so a dead receiver does not disturb the loop. -/
def ingressStep (correlations : CorrelationTable) (cid : Nat) :
    Option CorrelationTable :=
  match correlations.find? fun e => decide (e.1 = cid) with
  | some _ => some (correlations.eraseP fun e => decide (e.1 = cid))
  | none => none

/-! ### Authentication (src/client/src/messaging/authentication.rs,
src/client/src/protocol/authentication.rs, src/client/src/remote/member.rs) -/

/-- `enum AuthenticationStatus` with its `Display` text (derive_more). -/
inductive AuthenticationStatus where
  | authenticated
  | credentialsFailed
  | serializationVersionMismatch
  | notAllowedInCluster
  deriving DecidableEq

/-- The `Display` text of each status variant. -/
def statusText : AuthenticationStatus → String
  | .authenticated => "Authenticated"
  | .credentialsFailed => "CredentialsFailed"
  | .serializationVersionMismatch => "SerializationVersionMismatch"
  | .notAllowedInCluster => "NotAllowedInCluster"

/-- `AuthenticationResponse::status`
(src/client/src/messaging/authentication.rs lines 58-67): maps status bytes
0-3 to the enum, and panics (`none`) on every other byte. -/
def authenticationStatus : Nat → Option AuthenticationStatus
  | 0 => some .authenticated
  | 1 => some .credentialsFailed
  | 2 => some .serializationVersionMismatch
  | 3 => some .notAllowedInCluster
  | _ + 4 => none

/-- `AuthenticationResponse::failure`
(src/client/src/protocol/authentication.rs): the response's first byte read
as a bool (`read_u8() > 0`). -/
def authenticationFailureFlag (statusByte : Nat) : Bool := decide (0 < statusByte)

/-- The member record built by a successful `Member::connect`
(src/client/src/remote/member.rs): the server-assigned id, owner id and
advertised address from the authentication response. -/
structure MemberRecord where
  id : Option HzString
  ownerId : Option HzString
  address : Option Address
  deriving DecidableEq

/-- `Member::connect` outcome as a function of the decoded authentication
response (src/client/src/remote/member.rs lines 40-57): reject with the
credentials-invalid error when the response's failure flag is set —
regardless of which nonzero status byte set it — and otherwise build the
member from the response fields. -/
def memberConnect (statusByte : Nat) (id ownerId : Option HzString)
    (addr : Option Address) : Except HzError MemberRecord :=
  if authenticationFailureFlag statusByte then .error .invalidCredentials
  else .ok ⟨id, ownerId, addr⟩

/-! ### PN-counter handle (src/client/src/protocol/pn_counter.rs) -/

/-- `PnCounter { name, cluster, replica_timestamps }`: the handle state is
its name and the stored replica-timestamp vector; it holds no member
address. -/
structure PnCounter where
  name : HzString
  replicaTimestamps : List ReplicaTimestampEntry
  deriving DecidableEq

/-- `PnCounter::new`: empty replica-timestamp vector. -/
def PnCounter.new (name : HzString) : PnCounter := ⟨name, []⟩

/-- The `PnCounterGetRequest` a `get` call builds: the handle's name and
stored replica timestamps, plus the resolved address. -/
def PnCounter.getRequest (h : PnCounter) (addr : Address) : PnCounterGetRequest :=
  ⟨h.name, h.replicaTimestamps, addr⟩

/-- The `PnCounterAddRequest` an `add` call builds (`get_and_add` passes
`get_before_update = true`, `add_and_get` passes `false`). -/
def PnCounter.addRequest (h : PnCounter) (delta : Int) (getBeforeUpdate : Bool)
    (addr : Address) : PnCounterAddRequest :=
  ⟨h.name, delta, getBeforeUpdate, h.replicaTimestamps, addr⟩

/-- The success path of `PnCounter::get` after the response arrives:
overwrite the stored timestamps with the response's, return its value. -/
def PnCounter.onGetResponse (h : PnCounter) (resp : PnCounterGetResponse) :
    Int × PnCounter :=
  (resp.value, ⟨h.name, resp.replicaTimestamps⟩)

/-- The success path of `PnCounter::add` after the response arrives:
overwrite the stored timestamps with the response's, return its value. -/
def PnCounter.onAddResponse (h : PnCounter) (resp : PnCounterAddResponse) :
    Int × PnCounter :=
  (resp.value, ⟨h.name, resp.replicaTimestamps⟩)

theorem readsBack_uLE (n v : Nat) (h : v < 256 ^ n) :
    ReadsBack (fun v => some (bytesLE n v)) (readLE n) v := by
  intro bs rest henc
  cases henc
  rw [readLE_bytesLE, Nat.mod_eq_of_lt h]

/-! ### Claim theorems -/

/-- C1: For every request message and correlation id, the encoded wire frame
after the 4-byte length field consists exactly of the protocol-version byte
`1`, the flags byte `0xC0` (unfragmented), the message type as `u16`
little-endian, the correlation id as `u64` little-endian, the partition id
as `i32` little-endian (`-1`, bytes `FF FF FF FF`, for the core's
non-partition-targeted requests), the data offset `22` as `u16`
little-endian, and then the unmodified message payload; decoding such a
frame recovers the same message type, correlation id and payload. -/
theorem frame_layout_and_round_trip (cid mtype : Nat) (payload : HzBytes)
    (hc : cid < 2 ^ 64) (ht : mtype < 2 ^ 16) :
    encodeFrame cid mtype requestPartitionId payload =
        [1, 0xC0] ++ bytesLE 2 mtype ++ bytesLE 8 cid ++
          writeI32 requestPartitionId ++ [22, 0] ++ payload ∧
      writeI32 requestPartitionId = [255, 255, 255, 255] ∧
      decodeFrame (encodeFrame cid mtype requestPartitionId payload) =
        some (cid, mtype, payload) := by
  refine ⟨?_, by decide, decodeFrame_encodeFrame cid mtype payload hc ht⟩
  unfold encodeFrame
  rw [show writeU8 PROTOCOL_VERSION = [1] from by decide,
    show writeU8 UNFRAGMENTED_MESSAGE = [0xC0] from by decide,
    show bytesLE 2 HEADER_LENGTH = [22, 0] from by decide]
  simp

/-- C1 witness: a concrete frame (correlation id 7, message type 0x2001,
payload `[9]`) decodes back to its parts. -/
theorem frame_layout_and_round_trip_witness :
    decodeFrame (encodeFrame 7 0x2001 requestPartitionId [9]) =
      some (7, 0x2001, [9]) :=
  (frame_layout_and_round_trip 7 0x2001 [9] (by norm_num) (by norm_num)).2.2

/-- C2: For every protocol record type — addresses, replica-timestamp
entries, authentication request/response (with cluster members and
attributes), ping, the counter records, exceptions with stack-trace entries,
and the primitive, string, optional and sequence codecs they are composed
from — reading back a value's encoding in field-declaration order returns
the value (and leaves any following bytes untouched):
`decode(encode(v)) = v`. Range hypotheses are the invariants the Rust field
types enforce statically. -/
theorem codec_records_round_trip :
    (∀ v : Nat, v < 256 → ReadsBack (fun v => some (writeU8 v)) readU8 v) ∧
    (∀ b : Bool, ReadsBack (fun b => some (writeBool b)) readBool b) ∧
    (∀ v : Nat, v < 2 ^ 16 → ReadsBack (fun v => some (bytesLE 2 v)) (readLE 2) v) ∧
    (∀ v : Nat, v < 2 ^ 32 → ReadsBack (fun v => some (bytesLE 4 v)) (readLE 4) v) ∧
    (∀ v : Nat, v < 2 ^ 64 → ReadsBack (fun v => some (bytesLE 8 v)) (readLE 8) v) ∧
    (∀ v : Int, -(2 ^ 31) ≤ v → v < 2 ^ 31 →
      ReadsBack (fun v => some (writeI32 v)) readI32 v) ∧
    (∀ v : Int, -(2 ^ 63) ≤ v → v < 2 ^ 63 →
      ReadsBack (fun v => some (writeI64 v)) readI64 v) ∧
    (∀ s : HzString, ReadsBack encodeString readString s) ∧
    (∀ ov : Option HzString,
      ReadsBack (encodeOpt encodeString) (readOpt readString) ov) ∧
    (∀ a : Address, a.Wf → ReadsBack encodeAddress readAddress a) ∧
    (∀ e : ReplicaTimestampEntry, e.Wf →
      ReadsBack encodeReplicaTimestampEntry readReplicaTimestampEntry e) ∧
    (∀ xs : List ReplicaTimestampEntry, (∀ e ∈ xs, e.Wf) →
      ReadsBack (encodeList encodeReplicaTimestampEntry)
        (readList readReplicaTimestampEntry) xs) ∧
    (∀ e : AttributeEntry, ReadsBack encodeAttributeEntry readAttributeEntry e) ∧
    (∀ m : ClusterMember, m.Wf → ReadsBack encodeClusterMember readClusterMember m) ∧
    (∀ e : StackTraceEntry, e.Wf →
      ReadsBack encodeStackTraceEntry readStackTraceEntry e) ∧
    (∀ r : AuthenticationRequest, r.Wf →
      ReadsBack encodeAuthenticationRequest readAuthenticationRequest r) ∧
    (∀ r : AuthenticationResponse, r.Wf →
      ReadsBack encodeAuthenticationResponse readAuthenticationResponse r) ∧
    (∀ p : PingRecord, ReadsBack encodePingRecord readPingRecord p) ∧
    (∀ e : HzException, e.Wf → ReadsBack encodeHzException readHzException e) ∧
    (∀ r : PnCounterGetRequest, r.Wf →
      ReadsBack encodePnCounterGetRequest readPnCounterGetRequest r) ∧
    (∀ r : PnCounterGetResponse, r.Wf →
      ReadsBack encodePnCounterGetResponse readPnCounterGetResponse r) ∧
    (∀ r : PnCounterAddRequest, r.Wf →
      ReadsBack encodePnCounterAddRequest readPnCounterAddRequest r) ∧
    (∀ r : PnCounterAddResponse, r.Wf →
      ReadsBack encodePnCounterAddResponse readPnCounterAddResponse r) ∧
    (∀ r : PnCounterGetReplicaCountRequest,
      ReadsBack encodePnCounterGetReplicaCountRequest
        readPnCounterGetReplicaCountRequest r) ∧
    (∀ r : PnCounterGetReplicaCountResponse, r.Wf →
      ReadsBack encodePnCounterGetReplicaCountResponse
        readPnCounterGetReplicaCountResponse r) :=
  ⟨readsBack_u8, readsBack_bool,
    fun v h => readsBack_uLE 2 v (by omega),
    fun v h => readsBack_uLE 4 v (by omega),
    fun v h => readsBack_uLE 8 v (by omega),
    readsBack_i32, readsBack_i64, readsBack_string,
    fun ov => readsBack_opt encodeString readString ov fun v _ => readsBack_string v,
    readsBack_address, readsBack_replicaTimestampEntry,
    fun xs h => readsBack_list encodeReplicaTimestampEntry readReplicaTimestampEntry
      xs fun e he => readsBack_replicaTimestampEntry e (h e he),
    readsBack_attributeEntry, readsBack_clusterMember, readsBack_stackTraceEntry,
    readsBack_authenticationRequest, readsBack_authenticationResponse,
    readsBack_pingRecord, readsBack_hzException, readsBack_pnCounterGetRequest,
    readsBack_pnCounterGetResponse, readsBack_pnCounterAddRequest,
    readsBack_pnCounterAddResponse, readsBack_pnCounterGetReplicaCountRequest,
    readsBack_pnCounterGetReplicaCountResponse⟩

/-- C2 witness: a concrete address and a concrete replica-timestamp entry
read back from their encodings. -/
theorem codec_records_round_trip_witness :
    readAddress ([2, 0, 0, 0, 104, 105, 69, 22, 0, 0] ++ []) =
        some (⟨[104, 105], 5701⟩, []) ∧
      readReplicaTimestampEntry
          ([2, 0, 0, 0, 114, 49, 7, 0, 0, 0, 0, 0, 0, 0] ++ []) =
        some (⟨[114, 49], 7⟩, []) :=
  ⟨codec_records_round_trip.2.2.2.2.2.2.2.2.2.1 ⟨[104, 105], 5701⟩ (by decide)
      [2, 0, 0, 0, 104, 105, 69, 22, 0, 0] [] (by decide),
    codec_records_round_trip.2.2.2.2.2.2.2.2.2.2.1 ⟨[114, 49], 7⟩ (by decide)
      [2, 0, 0, 0, 114, 49, 7, 0, 0, 0, 0, 0, 0, 0] [] (by decide)⟩

/-- The ordering C3 claims for one `send` processed by the event loop: the
frame is prepared before the slot is registered, and the slot is registered
before the frame is handed to the socket. -/
def c3ClaimAsStated : Prop :=
  ∀ cid : Nat,
    occursBefore (.prepareFrame cid) (.registerSlot cid)
        (sendActions cid ++ egressActions cid) = true ∧
      occursBefore (.registerSlot cid) (.socketWrite cid)
        (sendActions cid ++ egressActions cid) = true

/-- C3 counterexample: the Egress arm of the event loop
(src/client/src/remote/channel.rs lines 57-61) writes the frame to the
socket first and inserts the slot into the correlation table second, so the
registration does not precede the socket write — already for correlation
id 0. -/
theorem channel_slot_before_write_counterexample : ¬ c3ClaimAsStated := by
  intro h
  exact absurd (h 0).2 (by decide)

/-- C3 amended: the frame bytes are fully prepared (in `Channel::send`)
before the slot is registered; the slot is registered immediately after the
frame is handed to the socket, within the same event-loop iteration, before
any further event is examined — so, the loop being sequential, an inbound
frame whose correlation id was registered by an earlier egress event still
always finds its slot (no response can be processed for an id whose slot is
not yet present). -/
theorem channel_send_discipline (cid : Nat) (evs : List ChanEvent)
    (table : List Nat) (hbal : SlotBalanced table evs) :
    occursBefore (.prepareFrame cid) (.registerSlot cid)
        (sendActions cid ++ egressActions cid) = true ∧
      egressActions cid = [.socketWrite cid, .registerSlot cid] ∧
      (loopRun table evs).2 = false := by
  refine ⟨?_, rfl, loopRun_no_panic evs table hbal⟩
  simp [sendActions, egressActions, occursBefore, containsAction]

/-- C3 witness: one send (correlation id 1) followed by its response. -/
theorem channel_send_discipline_witness :
    occursBefore (.prepareFrame 1) (.registerSlot 1)
        (sendActions 1 ++ egressActions 1) = true ∧
      egressActions 1 = [.socketWrite 1, .registerSlot 1] ∧
      (loopRun [] [.egress 1, .ingress 1]).2 = false :=
  channel_send_discipline 1 [.egress 1, .ingress 1] [] (by
    intro k c
    match k with
    | 0 => simp [countIngress, countEgress]
    | 1 =>
      show countIngress c [ChanEvent.egress 1] ≤
        countEgress c [ChanEvent.egress 1] + List.count c []
      simp [countIngress, countEgress]
    | k + 2 =>
      rw [show List.take (k + 2) [ChanEvent.egress 1, ChanEvent.ingress 1] =
        [ChanEvent.egress 1, ChanEvent.ingress 1] by
          simp [List.take_succ_cons, List.take_nil]]
      by_cases hc : (1 : Nat) = c <;>
        simp [countIngress, countEgress, hc])

/-- C4: in a registry with a non-empty enabled vector of length `k`,
the `i`-th consecutive selection is the entry at `(sequencer + i) mod k`
(value projected), the selection sequence has period `k` and covers every
index within one period; after `disable a`, no later sequence of selections
and disables ever has an entry keyed `a` in the enabled vector, and lookup
of `a` returns nothing; and dispatch on an empty enabled vector fails with
the cluster-non-operational error. -/
theorem registry_round_robin_dispatch {K V : Type} [DecidableEq K]
    (r : Registry K V) (hne : r.vec ≠ []) (i j : Nat) (hj : j < r.vec.length)
    (a : K) (hnodup : (r.vec.map Prod.fst).Nodup) (ops : List (RegOp K))
    (re : Registry K V) (hempty : re.vec = []) :
    r.selectionAt i =
        (r.vec.get? ((r.sequencer + i) % r.vec.length)).map Prod.snd ∧
      r.selectionAt (i + r.vec.length) = r.selectionAt i ∧
      r.selectionAt
          ((j + r.vec.length - r.sequencer % r.vec.length) % r.vec.length) =
        (r.vec.get? j).map Prod.snd ∧
      a ∉ ((r.disable a).applyOps ops).vec.map Prod.fst ∧
      ((r.disable a).applyOps ops).getBy a = none ∧
      (clusterDispatch re).1 = .error .clusterNonOperational := by
  have hpos : 0 < r.vec.length := List.length_pos.2 hne
  refine ⟨Registry.selectionAt_eq r hne i, ?_, ?_,
    (disabled_stays_out r a hnodup ops).1, (disabled_stays_out r a hnodup ops).2, ?_⟩
  · rw [Registry.selectionAt_eq r hne, Registry.selectionAt_eq r hne,
      ← Nat.add_assoc, Nat.add_mod_right]
  · rw [Registry.selectionAt_eq r hne,
      rotation_index r.sequencer j r.vec.length hpos hj]
  · simp [clusterDispatch, Registry.get, hempty]

/-- A two-member registry with the sequencer at 5, for the C4 witness. -/
def regW : Registry Nat Nat := ⟨[(0, 10), (1, 11)], fun _ => none, [], 5⟩

/-- An empty registry, for the C4 witness. -/
def regEmptyW : Registry Nat Nat := ⟨[], fun _ => none, [], 0⟩

/-- C4 witness: concrete two-member registry, selection index 3, coverage
index 0, disabling key 0 followed by a selection and another disable. -/
theorem registry_round_robin_dispatch_witness :
    regW.selectionAt 3 =
        (regW.vec.get? ((regW.sequencer + 3) % regW.vec.length)).map Prod.snd ∧
      regW.selectionAt (3 + regW.vec.length) = regW.selectionAt 3 ∧
      regW.selectionAt
          ((0 + regW.vec.length - regW.sequencer % regW.vec.length) %
            regW.vec.length) =
        (regW.vec.get? 0).map Prod.snd ∧
      (0 : Nat) ∉ ((regW.disable 0).applyOps
        [RegOp.get, RegOp.disable 1]).vec.map Prod.fst ∧
      ((regW.disable 0).applyOps [RegOp.get, RegOp.disable 1]).getBy 0 = none ∧
      (clusterDispatch regEmptyW).1 = .error .clusterNonOperational :=
  registry_round_robin_dispatch regW (by decide) 3 0 (by decide) 0 (by decide)
    [RegOp.get, RegOp.disable 1] regEmptyW rfl

/-- C5: after a successful `get`, `get_and_add` or `add_and_get`, the
handle's stored replica-timestamp vector equals exactly the vector carried
in the server response, the returned value equals the response's value
field, and the stored vector is the one placed in the handle's next get or
add request. -/
theorem pn_counter_updates_and_echoes (h : PnCounter) (gr : PnCounterGetResponse)
    (ar : PnCounterAddResponse) (addr addr' : Address) (delta : Int) (g : Bool) :
    (h.onGetResponse gr).1 = gr.value ∧
      (h.onGetResponse gr).2.replicaTimestamps = gr.replicaTimestamps ∧
      ((h.onGetResponse gr).2.getRequest addr).replicaTimestamps =
        gr.replicaTimestamps ∧
      ((h.onGetResponse gr).2.addRequest delta g addr').replicaTimestamps =
        gr.replicaTimestamps ∧
      (h.onAddResponse ar).1 = ar.value ∧
      (h.onAddResponse ar).2.replicaTimestamps = ar.replicaTimestamps ∧
      ((h.onAddResponse ar).2.getRequest addr).replicaTimestamps =
        ar.replicaTimestamps ∧
      ((h.onAddResponse ar).2.addRequest delta g addr').replicaTimestamps =
        ar.replicaTimestamps :=
  ⟨rfl, rfl, rfl, rfl, rfl, rfl, rfl, rfl⟩

/-- A three-member registry (members modelled by their addresses 0, 1, 2)
with the sequencer at 0, for C6. -/
def sampleRegistry : Registry Nat Nat := ⟨[(0, 0), (1, 1), (2, 2)], fun _ => none, [], 0⟩

/-- The stickiness C6 claims: after an operation successfully targets an
enabled member, the next operation on the same handle targets the same
member as long as it stays enabled. -/
def c6ClaimAsStated : Prop :=
  ∀ (r : Registry Nat Nat) (a : Nat),
    (counterOpTarget r).1 = some a →
    a ∈ (counterOpTarget r).2.vec.map Prod.fst →
    (counterOpTarget (counterOpTarget r).2).1 = some a

/-- C6 counterexample: on a three-member registry the first operation
targets member 1 (which stays enabled), yet the next operation targets
member 0 — the handle (src/client/src/protocol/pn_counter.rs) stores no
address and the cluster dispatch is pure round-robin, so nothing is
pinned. -/
theorem pn_counter_sticky_counterexample : ¬ c6ClaimAsStated := by
  intro h
  have h2 := h sampleRegistry 1 (by decide) (by decide)
  exact absurd h2 (by decide)

/-- C6 amended: the counter handle holds only its name and replica
timestamps, so an operation's target is determined by the registry's
round-robin sequence alone: the payload-address resolution consumes one
sequence step and the dispatch the next, the dispatched member being the
entry at `(sequencer + 1) mod k`; the enabled vector is unchanged and the
sequencer advances by two, so consecutive operations walk the rotation
instead of returning to the previously used member. -/
theorem pn_counter_round_robin_targeting {K : Type} [DecidableEq K]
    (r : Registry K K) (h : r.vec ≠ []) :
    (counterOpTarget r).1 =
        (r.vec.get? ((r.sequencer + 1) % r.vec.length)).map Prod.snd ∧
      (counterOpTarget r).2.vec = r.vec ∧
      (counterOpTarget r).2.sequencer = r.sequencer + 2 :=
  counterOpTarget_eq r h

/-- C6 witness: the three-member registry. -/
theorem pn_counter_round_robin_targeting_witness :
    (counterOpTarget sampleRegistry).1 =
        (sampleRegistry.vec.get?
          ((sampleRegistry.sequencer + 1) % sampleRegistry.vec.length)).map
            Prod.snd ∧
      (counterOpTarget sampleRegistry).2.vec = sampleRegistry.vec ∧
      (counterOpTarget sampleRegistry).2.sequencer =
        sampleRegistry.sequencer + 2 :=
  pn_counter_round_robin_targeting sampleRegistry (by decide)

/-- The error mapping C7 claims: every nonzero authentication status (1, 2
or 3) makes `Member::connect` fail with an authentication-failure error
carrying that status's text. -/
def c7ClaimAsStated : Prop :=
  ∀ s : Nat, 1 ≤ s → s ≤ 3 →
    ∀ (id ownerId : Option HzString) (addr : Option Address),
      memberConnect s id ownerId addr =
        .error (.authenticationFailure
          (((authenticationStatus s).map statusText).getD ""))

/-- C7 counterexample: at status byte 2 (serialization version mismatch)
`Member::connect` (src/client/src/remote/member.rs) fails with the bare
credentials-invalid error, not with an authentication-failure error carrying
the text "SerializationVersionMismatch" — the connect path only sees the
boolean failure flag of src/client/src/protocol/authentication.rs and
cannot distinguish the nonzero statuses. -/
theorem member_connect_status_counterexample : ¬ c7ClaimAsStated := by
  intro h
  have h2 := h 2 (by decide) (by decide) none none none
  rw [show memberConnect 2 none none none = .error .invalidCredentials from rfl] at h2
  injection h2 with h3
  exact HzError.noConfusion h3

/-- C7 amended: `Member::connect` succeeds exactly when the status byte is
0; every nonzero status byte (1, 2 and 3 alike) yields the same
credentials-invalid error, with no status text attached. -/
theorem member_connect_status (s : Nat) (hs : s < 256)
    (id ownerId : Option HzString) (addr : Option Address) :
    ((memberConnect s id ownerId addr).isOk = true ↔ s = 0) ∧
      (s ≠ 0 → memberConnect s id ownerId addr = .error .invalidCredentials) := by
  by_cases h0 : s = 0
  · subst h0
    rw [show memberConnect 0 id ownerId addr = .ok ⟨id, ownerId, addr⟩ from rfl]
    exact ⟨⟨fun _ => rfl, fun _ => rfl⟩, fun hne => absurd rfl hne⟩
  · have hflag : memberConnect s id ownerId addr = .error .invalidCredentials := by
      unfold memberConnect authenticationFailureFlag
      rw [if_pos (decide_eq_true (Nat.pos_of_ne_zero h0))]
    rw [hflag]
    refine ⟨⟨fun hok => ?_, fun he => absurd he h0⟩, fun _ => rfl⟩
    exact Bool.noConfusion hok

/-- C7 witness: status byte 2. -/
theorem member_connect_status_witness :
    ((memberConnect 2 none none none).isOk = true ↔ 2 = 0) ∧
      ((2 : Nat) ≠ 0 →
        memberConnect 2 none none none = .error .invalidCredentials) :=
  member_connect_status 2 (by decide) none none none

/-- The construction-time failure C8 claims: when no seed endpoint
authenticates, client construction fails with the cluster-non-operational
error. -/
def c8ClaimAsStated : Prop :=
  ∀ results : List (Nat × Except Unit (Nat × Nat)),
    (∀ p ∈ results, p.2.toOption = none) →
    clusterInit results = .error .clusterNonOperational

/-- C8 counterexample: with a single seed endpoint whose connection fails,
`Members::from` still returns a registry (with an empty enabled set) and
`Cluster::init` returns it as a client — construction does not fail. -/
theorem cluster_init_counterexample : ¬ c8ClaimAsStated := by
  intro h
  have h2 := h [(0, .error ())] (by decide)
  unfold clusterInit at h2
  exact Except.noConfusion h2

/-- C8 amended: construction always succeeds; when every seed endpoint
fails to authenticate the registry's enabled vector is empty, and the
cluster-non-operational error surfaces on the first dispatch instead of at
construction. -/
theorem cluster_init_all_failed {K V : Type} [DecidableEq K]
    (results : List (K × Except Unit (K × V)))
    (h : ∀ p ∈ results, p.2.toOption = none) :
    clusterInit results = .ok (membersFrom results) ∧
      (membersFrom results).vec = [] ∧
      (clusterDispatch (membersFrom results)).1 =
        .error .clusterNonOperational := by
  have hv := membersFrom_vec_of_all_failed results h
  exact ⟨rfl, hv, by simp [clusterDispatch, Registry.get, hv]⟩

/-- C8 witness: one failing seed endpoint. -/
theorem cluster_init_all_failed_witness :
    clusterInit [((0 : Nat), (.error () : Except Unit (Nat × Nat)))] =
        .ok (membersFrom [((0 : Nat), (.error () : Except Unit (Nat × Nat)))]) ∧
      (membersFrom [((0 : Nat), (.error () : Except Unit (Nat × Nat)))]).vec = [] ∧
      (clusterDispatch
          (membersFrom [((0 : Nat), (.error () : Except Unit (Nat × Nat)))])).1 =
        .error .clusterNonOperational :=
  cluster_init_all_failed [(0, .error ())] (by decide)

/-- The lenient handling C9 claims: an inbound frame whose correlation id
has no slot in the table is dropped (with an error log) and the channel
keeps serving with the table unchanged. -/
def c9ClaimAsStated : Prop :=
  ∀ (t : CorrelationTable) (cid : Nat),
    (t.find? fun e => decide (e.1 = cid)) = none →
    ingressStep t cid = some t

/-- C9 counterexample: with an empty correlation table, an inbound frame
with correlation id 5 hits `expect("missing correlation!")` — the channel
task panics instead of dropping the message and continuing. -/
theorem channel_ingress_counterexample : ¬ c9ClaimAsStated := by
  intro h
  have h2 := h [] 5 rfl
  exact absurd h2 (by decide)

/-- C9 amended: an inbound frame whose correlation id has a slot — and the
slot is still present when the waiter merely dropped the receiving end, the
failed fulfilment being ignored — removes the slot and the loop keeps
serving; but an inbound frame whose id has no slot at all panics the
channel task (`expect("missing correlation!")`), terminating it, rather
than being dropped with an error log. -/
theorem channel_ingress_slot_handling (t : CorrelationTable) (cid : Nat) :
    ((t.find? fun e => decide (e.1 = cid)) = none → ingressStep t cid = none) ∧
      (∀ alive : Bool, (cid, alive) ∈ t →
        ingressStep t cid = some (t.eraseP fun e => decide (e.1 = cid))) := by
  constructor
  · intro h
    unfold ingressStep
    rw [h]
  · intro alive hmem
    unfold ingressStep
    cases hf : t.find? fun e => decide (e.1 = cid) with
    | some e => rfl
    | none =>
      have := List.find?_eq_none.1 hf (cid, alive) hmem
      simp at this
  
/-- C9 witness: the empty table panics on id 5; a table whose single entry's
receiver was dropped still serves id 7 and removes the entry. -/
theorem channel_ingress_slot_handling_witness :
    ingressStep [] 5 = none ∧ ingressStep [(7, false)] 7 = some [] := by
  refine ⟨(channel_ingress_slot_handling [] 5).1 rfl, ?_⟩
  have h := (channel_ingress_slot_handling [(7, false)] 7).2 false (by decide)
  simpa using h

/-- C10: `AuthenticationResponse::status` is defined only for status bytes
0 through 3 (Authenticated, CredentialsFailed, SerializationVersionMismatch,
NotAllowedInCluster); for every other status byte received from the server
it panics instead of returning an error value, so a malformed status byte
crashes the calling task. -/
theorem authentication_status_domain (b : Nat) :
    authenticationStatus 0 = some .authenticated ∧
      authenticationStatus 1 = some .credentialsFailed ∧
      authenticationStatus 2 = some .serializationVersionMismatch ∧
      authenticationStatus 3 = some .notAllowedInCluster ∧
      (4 ≤ b → b < 256 → authenticationStatus b = none) := by
  refine ⟨rfl, rfl, rfl, rfl, fun h4 _ => ?_⟩
  match b, h4 with
  | n + 4, _ => rfl

/-- C10 witness: status byte 7 panics; status byte 0 authenticates. -/
theorem authentication_status_domain_witness :
    authenticationStatus 7 = none ∧
      authenticationStatus 0 = some .authenticated :=
  ⟨(authentication_status_domain 7).2.2.2.2 (by decide) (by decide),
    (authentication_status_domain 7).1⟩
